import Mathlib

/-!
Verification development for the `zlog` Caddy middleware (Salpadding/zlog).

The repository holds two variants of the middleware:
  * `src/main.go` — namespace `Main` below: 512 KiB capture ceiling
    (`MaxBufferSize`), 512-byte rendered-text truncation (`MaxTextSize`),
    per-read ASCII filtering of the request body, large-payload placeholders
    in `writeLog`;
  * `src/unnamed/part_000` — namespace `Part0` below: configurable `truncate`
    capacity, min-capped capture buffers, observed-size counters, a
    `truncate` Caddyfile option with a 1024-byte default.

Bodies and rendered log text are byte strings, embedded as `List Nat`
(each element a byte value).  Go's `encoding/json` behaviour used by
`tryToJson` is embedded in namespace `GoJson` on an explicit fragment of
JSON (see the doc comments there).
-/

/-- Bytes of an ASCII string literal (used to state concrete inputs). -/
def asciiBytes (s : String) : List Nat := s.toList.map Char.toNat

/-- Decimal digits of a natural number, as bytes (Go `%d` on a non-negative value). -/
def natToBytes (n : Nat) : List Nat := (Nat.toDigits 10 n).map Char.toNat

/-- Go `%d` / `strconv` style decimal rendering of an integer, as bytes. -/
def intToBytes (i : Int) : List Nat :=
  if i < 0 then 45 :: natToBytes (-i).toNat else natToBytes i.toNat

/-- Go's two-argument integer `min`, written with `int` in the source
(`proxyWriter.min` in part_000); modelled on `Int` because the source
subtracts buffer lengths before comparing. -/
def goMin (x y : Int) : Int := if x < y then x else y

namespace GoJson

/-!
Model of the composition `json.Unmarshal` into `interface\x7b\x7d` followed by
`json.Marshal`, as used by `tryToJson` in both variants.  The model covers an
explicit fragment of what Go accepts:

  * numbers: integer literals of at most 15 decimal digits, with no fraction,
    exponent, or minus-zero (such literals are exactly representable in Go's
    `float64` and re-marshal as the plain decimal integer);
  * strings: ASCII contents with the escapes `\" \\ \/ \n \r \t \b \f`
    (no `\u` escapes, no bytes above 127);
  * objects, arrays, `true`, `false`, `null` in full.

Inputs outside the fragment are rejected by the model parser even where Go
would accept them.  Go unmarshals objects into `map[string]interface\x7b\x7d`
(duplicate keys: last value wins, document order lost) and `json.Marshal`
iterates map keys in sorted byte order, so the model keeps object members
sorted by key from parse time on.
-/

mutual
/-- A decoded JSON value of the fragment (Go: the `interface\x7b\x7d` result). -/
inductive JVal where
  | jnull : JVal
  | jbool (b : Bool) : JVal
  | jint (n : Int) : JVal
  | jstr (s : List Nat) : JVal
  | jarr (xs : JArr) : JVal
  | jobj (fs : JObj) : JVal

/-- Array elements, in document order. -/
inductive JArr where
  | nil : JArr
  | cons (v : JVal) (rest : JArr) : JArr

/-- Object members, kept sorted by key (byte-lexicographic), duplicates merged
last-wins — the canonical form of a Go `map[string]interface\x7b\x7d`. -/
inductive JObj where
  | nil : JObj
  | cons (k : List Nat) (v : JVal) (rest : JObj) : JObj
end

/-- JSON insignificant whitespace (space, tab, newline, carriage return). -/
def isWS (b : Nat) : Bool := b = 32 || b = 9 || b = 10 || b = 13

/-- Drop leading JSON whitespace bytes. -/
def skipWS : List Nat → List Nat
  | [] => []
  | b :: rest => if isWS b then skipWS rest else b :: rest

/-- ASCII decimal digit byte. -/
def isDigitByte (b : Nat) : Bool := 48 ≤ b && b ≤ 57

/-- Split a leading run of decimal digit bytes from the rest. -/
def digitRun : List Nat → List Nat × List Nat
  | [] => ([], [])
  | b :: rest =>
    if isDigitByte b then
      let (ds, r) := digitRun rest
      (b :: ds, r)
    else ([], b :: rest)

/-- Numeric value of a run of decimal digit bytes. -/
def digitsVal (ds : List Nat) : Nat := ds.foldl (fun a b => a * 10 + (b - 48)) 0

/-- Decode a JSON string body after its opening quote: returns the decoded
content bytes and the remainder after the closing quote.  Fragment: ASCII
contents, simple escapes only. -/
def parseStrBody : List Nat → List Nat → Option (List Nat × List Nat)
  | [], _ => none
  | 34 :: rest, acc => some (acc.reverse, rest)
  | 92 :: e :: rest, acc =>
    if e = 34 then parseStrBody rest (34 :: acc)
    else if e = 92 then parseStrBody rest (92 :: acc)
    else if e = 47 then parseStrBody rest (47 :: acc)
    else if e = 110 then parseStrBody rest (10 :: acc)
    else if e = 114 then parseStrBody rest (13 :: acc)
    else if e = 116 then parseStrBody rest (9 :: acc)
    else if e = 98 then parseStrBody rest (8 :: acc)
    else if e = 102 then parseStrBody rest (12 :: acc)
    else none
  | [92], _ => none
  | b :: rest, acc =>
    if b < 32 || 127 < b then none else parseStrBody rest (b :: acc)

/-- Parse a JSON number at the head of the input (fragment: plain integer
literals, at most 15 digits, no leading zeros, no `-0`). -/
def parseNumber (s : List Nat) : Option (JVal × List Nat) :=
  let (neg, s1) := match s with
    | 45 :: r => (true, r)
    | _ => (false, s)
  match digitRun s1 with
  | ([], _) => none
  | (ds, rest) =>
    if 1 < ds.length ∧ ds.headD 0 = 48 then none
    else if 15 < ds.length then none
    else if neg ∧ ds = [48] then none
    else match rest with
      | 46 :: _ => none
      | 101 :: _ => none
      | 69 :: _ => none
      | _ =>
        let v : Int := digitsVal ds
        some (.jint (if neg then -v else v), rest)

/-- Byte-lexicographic strict order on keys (Go `sort.Strings` order). -/
def keyLt : List Nat → List Nat → Bool
  | [], [] => false
  | [], _ :: _ => true
  | _ :: _, [] => false
  | a :: ra, b :: rb => if a < b then true else if b < a then false else keyLt ra rb

/-- Insert a member into a sorted member list, replacing an equal key
(Go map assignment: last duplicate wins) and keeping sorted order. -/
def JObj.setKey : JObj → List Nat → JVal → JObj
  | .nil, k, v => .cons k v .nil
  | .cons k0 v0 rest, k, v =>
    if k = k0 then .cons k0 v rest
    else if keyLt k k0 then .cons k v (.cons k0 v0 rest)
    else .cons k0 v0 (rest.setKey k v)

/-- Append an element at the end of an array. -/
def JArr.snoc : JArr → JVal → JArr
  | .nil, v => .cons v .nil
  | .cons x rest, v => .cons x (rest.snoc v)

mutual
/-- Parse one JSON value at the head of the input.  `fuel` only bounds the
recursion; callers supply more fuel than any input can consume. -/
def parseVal : Nat → List Nat → Option (JVal × List Nat)
  | 0, _ => none
  | fuel + 1, s =>
    match skipWS s with
    | [] => none
    | b :: rest =>
      if b = 110 then
        match rest with
        | 117 :: 108 :: 108 :: r => some (.jnull, r)
        | _ => none
      else if b = 116 then
        match rest with
        | 114 :: 117 :: 101 :: r => some (.jbool true, r)
        | _ => none
      else if b = 102 then
        match rest with
        | 97 :: 108 :: 115 :: 101 :: r => some (.jbool false, r)
        | _ => none
      else if b = 34 then
        match parseStrBody rest [] with
        | some (cs, r) => some (.jstr cs, r)
        | none => none
      else if b = 123 then
        match skipWS rest with
        | 125 :: r => some (.jobj .nil, r)
        | _ => parseObjItems fuel rest .nil
      else if b = 91 then
        match skipWS rest with
        | 93 :: r => some (.jarr .nil, r)
        | _ => parseArrItems fuel rest .nil
      else parseNumber (b :: rest)

/-- Parse the members of a non-empty object after its opening brace. -/
def parseObjItems : Nat → List Nat → JObj → Option (JVal × List Nat)
  | 0, _, _ => none
  | fuel + 1, s, acc =>
    match skipWS s with
    | 34 :: r =>
      match parseStrBody r [] with
      | none => none
      | some (k, r2) =>
        match skipWS r2 with
        | 58 :: r3 =>
          match parseVal fuel r3 with
          | none => none
          | some (v, r4) =>
            match skipWS r4 with
            | 44 :: r5 => parseObjItems fuel r5 (acc.setKey k v)
            | 125 :: r5 => some (.jobj (acc.setKey k v), r5)
            | _ => none
        | _ => none
    | _ => none

/-- Parse the elements of a non-empty array after its opening bracket. -/
def parseArrItems : Nat → List Nat → JArr → Option (JVal × List Nat)
  | 0, _, _ => none
  | fuel + 1, s, acc =>
    match parseVal fuel s with
    | none => none
    | some (v, rest) =>
      match skipWS rest with
      | 44 :: r2 => parseArrItems fuel r2 (acc.snoc v)
      | 93 :: r2 => some (.jarr (acc.snoc v), r2)
      | _ => none
end

/-- Model of `json.Unmarshal(bs, &jsonObj)` (fragment): parse one value and
require only whitespace to remain, as Go rejects trailing data. -/
def goJsonUnmarshal (bs : List Nat) : Option JVal :=
  match parseVal (2 * bs.length + 8) bs with
  | some (v, rest) => if (skipWS rest).isEmpty then some v else none
  | none => none

/-- Lowercase hex digit byte for a value below 16 (Go uses lowercase hex). -/
def hexDigit (n : Nat) : Nat := if n < 10 then 48 + n else 87 + n

/-- A `\u00XX` escape, as bytes. -/
def uEscape (b : Nat) : List Nat := [92, 117, 48, 48, hexDigit (b / 16), hexDigit (b % 16)]

/-- Go `json.Marshal` escaping of one string byte: `\" \\ \n \r \t` as
two-byte escapes, `< > &` and remaining control bytes as `\u00XX`
(HTML-safe escaping is Go's default). -/
def escapeByte (b : Nat) : List Nat :=
  if b = 34 then [92, 34]
  else if b = 92 then [92, 92]
  else if b = 10 then [92, 110]
  else if b = 13 then [92, 114]
  else if b = 9 then [92, 116]
  else if b = 60 || b = 62 || b = 38 then uEscape b
  else if b < 32 then uEscape b
  else [b]

/-- Go `json.Marshal` escaping of a string's content bytes. -/
def escapeBytes : List Nat → List Nat
  | [] => []
  | b :: rest => escapeByte b ++ escapeBytes rest

mutual
/-- Model of `json.Marshal` on a decoded value: compact (no whitespace),
object keys emitted in sorted order (the invariant order of `JObj`). -/
def marshalVal : JVal → List Nat
  | .jnull => [110, 117, 108, 108]
  | .jbool true => [116, 114, 117, 101]
  | .jbool false => [102, 97, 108, 115, 101]
  | .jint n => intToBytes n
  | .jstr s => 34 :: (escapeBytes s ++ [34])
  | .jarr xs => 91 :: (marshalArr xs ++ [93])
  | .jobj fs => 123 :: (marshalObj fs ++ [125])

/-- Comma-separated marshalled array elements. -/
def marshalArr : JArr → List Nat
  | .nil => []
  | .cons v .nil => marshalVal v
  | .cons v (.cons w rest) => marshalVal v ++ 44 :: marshalArr (.cons w rest)

/-- Comma-separated marshalled object members, in member-list order. -/
def marshalObj : JObj → List Nat
  | .nil => []
  | .cons k v .nil => (34 :: (escapeBytes k ++ [34])) ++ 58 :: marshalVal v
  | .cons k v (.cons k2 v2 rest) =>
    ((34 :: (escapeBytes k ++ [34])) ++ 58 :: marshalVal v) ++ 44 :: marshalObj (.cons k2 v2 rest)
end

end GoJson

namespace Main

/-- src/main.go constant: the 512 KiB large-payload / capture ceiling. -/
def MaxBufferSize : Nat := 512 * 1024

/-- src/main.go constant: the 512-byte rendered-text truncation limit. -/
def MaxTextSize : Nat := 512

/-- State of `proxyWriter` (src/main.go) together with the request fields it
reads through `pw.req`: `buf` is the response capture buffer, `bodyBuf` the
request capture buffer, `respLen` the response byte counter, `code` the
recorded status (Go zero value 0 until `WriteHeader` runs). -/
structure ProxyWriter where
  buf : List Nat
  code : Int
  bodyBuf : List Nat
  respLen : Nat
  method : List Nat
  urlPath : List Nat
  contentType : List Nat
  contentLength : Int

/-- `proxyWriter.Write` (src/main.go): forward to the real writer (whose
result `(n, err)` is an input here), add `n` to `respLen`, then append the
whole chunk to `buf` unless `buf` is already at or above `MaxBufferSize`;
return the underlying result unchanged. -/
def pwWrite (pw : ProxyWriter) (data : List Nat) (n : Nat) (err : Option (List Nat)) :
    ProxyWriter × (Nat × Option (List Nat)) :=
  let pw1 := { pw with respLen := pw.respLen + n }
  if MaxBufferSize ≤ pw1.buf.length then (pw1, (n, err))
  else ({ pw1 with buf := pw1.buf ++ data }, (n, err))

/-- `proxyWriter.Read` (src/main.go): delegate to the real body reader (its
result is the `readBytes` just stored into `p` plus `err`), then skip capture
when the declared `ContentLength` exceeds `MaxBufferSize` or when this read
contains a byte above 127; otherwise append the read bytes to `bodyBuf`.
Returns the underlying count and error unchanged. -/
def pwRead (pw : ProxyWriter) (readBytes : List Nat) (err : Option (List Nat)) :
    ProxyWriter × (Nat × Option (List Nat)) :=
  let n := readBytes.length
  if (MaxBufferSize : Int) < pw.contentLength then (pw, (n, err))
  else if readBytes.any (fun b => 127 < b) then (pw, (n, err))
  else ({ pw with bodyBuf := pw.bodyBuf ++ readBytes }, (n, err))

/-- `strings.ReplaceAll(out, "\n", "\\n")` on bytes. -/
def escapeNewlines : List Nat → List Nat
  | [] => []
  | b :: rest => (if b = 10 then [92, 110] else [b]) ++ escapeNewlines rest

/-- `proxyWriter.tryToJson` (src/main.go): unmarshal the buffer as JSON and
re-marshal on success, otherwise escape newlines in the raw text; the
deferred block truncates whichever result to `MaxTextSize` bytes. -/
def tryToJson (buf : List Nat) : List Nat :=
  let res := match GoJson.goJsonUnmarshal buf with
    | none => escapeNewlines buf
    | some v => GoJson.marshalVal v
  res.take MaxTextSize

/-- The status field `%d p.code` of the log line. -/
def statusField (pw : ProxyWriter) : List Nat := intToBytes pw.code

/-- The request-body portion of the log line (src/main.go `writeLog`): the
placeholder when the declared `ContentLength` exceeds `MaxBufferSize`, else a
space and the rendered capture buffer. -/
def reqField (pw : ProxyWriter) : List Nat :=
  if (MaxBufferSize : Int) < pw.contentLength then asciiBytes " [Large Request] "
  else 32 :: tryToJson pw.bodyBuf

/-- The response-body portion of the log line (src/main.go `writeLog`): the
placeholder when the counted `respLen` exceeds `MaxBufferSize`, else a space
and the rendered capture buffer. -/
def respField (pw : ProxyWriter) : List Nat :=
  if MaxBufferSize < pw.respLen then asciiBytes " [Large Response] "
  else 32 :: tryToJson pw.buf

/-- Everything `writeLog` emits after the timestamp: duration, status,
method, path, request content type, both body fields, and the closing
" \n". -/
def writeLogRest (dur : List Nat) (pw : ProxyWriter) : List Nat :=
  32 :: (dur ++ 32 :: (statusField pw ++ 32 :: (pw.method ++ 32 :: (pw.urlPath ++
    32 :: pw.contentType)))) ++ reqField pw ++ respField pw ++ asciiBytes " \n"

/-- `proxyWriter.writeLog` (src/main.go) as the byte string it writes: the
formatted `time.Now()` timestamp (an input here — the code re-reads the
clock on every call) followed by the state-determined remainder. -/
def writeLog (now dur : List Nat) (pw : ProxyWriter) : List Nat :=
  now ++ writeLogRest dur pw

/-- One action the downstream handler performs against the proxy writer:
an explicit `WriteHeader`, a response `Write` whose underlying sink accepted
`n` bytes, or a request-body read that returned `readBytes`. -/
inductive HEvent where
  | writeHeader (k : Int) : HEvent
  | write (data : List Nat) (n : Nat) : HEvent
  | read (readBytes : List Nat) : HEvent

/-- Effect of one handler action on the `proxyWriter` state
(`WriteHeader` records the code; `Write`/`Read` as modelled above). -/
def step (pw : ProxyWriter) (e : HEvent) : ProxyWriter :=
  match e with
  | .writeHeader k => { pw with code := k }
  | .write data n => (pwWrite pw data n none).1
  | .read rb => (pwRead pw rb none).1

/-- The `proxyWriter` literal built in `ServeHTTP` (src/main.go): capture
buffers empty, counters zero, `code` at its Go zero value 0. -/
def initPW (method urlPath contentType : List Nat) (contentLength : Int) : ProxyWriter :=
  { buf := [], code := 0, bodyBuf := [], respLen := 0,
    method := method, urlPath := urlPath,
    contentType := contentType, contentLength := contentLength }

/-- True when the handler never calls `WriteHeader`. -/
def noExplicitStatus (es : List HEvent) : Bool :=
  es.all fun e => match e with
    | HEvent.writeHeader _ => false
    | _ => true

/-- Sink delivery in `ServeHTTP` (src/main.go): the whole logging block is
guarded by `z.LogFile != nil`; inside it the line goes to the file sink and
then to stdout, both write results discarded (`fileFails`/`consoleFails`
model those discarded failures); the function returns the downstream
handler's error unconditionally.  Result: (bytes handed to the file sink,
bytes handed to the console, returned error). -/
def serveSinks (logFileOpen : Bool) (fileFails consoleFails : Bool)
    (line : List Nat) (handlerErr : Option (List Nat)) :
    Option (List Nat) × Option (List Nat) × Option (List Nat) :=
  if logFileOpen then (some line, some line, handlerErr)
  else (none, none, handlerErr)

end Main

namespace Part0

/-- src/unnamed/part_000 constant: default `truncate` capacity in bytes. -/
def DefaultTruncate : Nat := 1024

/-- State of `proxyWriter` (src/unnamed/part_000): per-exchange response and
request capture buffers with observed-size counters and the configured
`truncate` capacity. -/
structure ProxyWriter where
  respBuf : List Nat
  respSize : Nat
  code : Int
  reqBuf : List Nat
  reqSize : Nat
  truncate : Nat

/-- `proxyWriter.Write` (part_000): forward (underlying count `n` is an
input), count `n` into `respSize`, then append
`data[:min(len(data), truncate-respBuf.Len())]` to the capture buffer. -/
def pwWrite (pw : ProxyWriter) (data : List Nat) (n : Nat) : ProxyWriter :=
  let pw1 := { pw with respSize := pw.respSize + n }
  let k := goMin (Int.ofNat data.length) ((pw1.truncate : Int) - (pw1.respBuf.length : Int))
  { pw1 with respBuf := pw1.respBuf ++ data.take k.toNat }

/-- `proxyWriter.Read` (part_000): delegate to the real reader (`readBytes`
is what it stored), count its length into `reqSize`, then append
`p[:min(truncate-reqBuf.Len(), n)]` to the request capture buffer. -/
def pwRead (pw : ProxyWriter) (readBytes : List Nat) : ProxyWriter :=
  let n := readBytes.length
  let pw1 := { pw with reqSize := pw.reqSize + n }
  let k := goMin ((pw1.truncate : Int) - (pw1.reqBuf.length : Int)) (Int.ofNat n)
  { pw1 with reqBuf := pw1.reqBuf ++ readBytes.take k.toNat }

/-- One Caddyfile block option as `UnmarshalCaddyfile` (part_000) sees it:
for `truncate` and `roll_size` the payload is the `humanize.ParseBytes`
result (`none` = the value did not parse as a byte size); the remaining
options do not touch `z.Truncate` and are folded into `otherOpt`. -/
inductive CfgOpt where
  | truncate (parsed : Option Nat) : CfgOpt
  | rollSize (parsed : Option Nat) : CfgOpt
  | otherOpt : CfgOpt

/-- Effect of one option on `z.Truncate` (part_000 `UnmarshalCaddyfile`):
`truncate` assigns the parse result and DISCARDS the parse error (a failed
parse assigns 0); `roll_size` propagates its parse failure as a dispenser
error; other options leave `z.Truncate` alone. -/
def applyOpt (z : Nat) (o : CfgOpt) : Except (List Nat) Nat :=
  match o with
  | .truncate parsed =>
    match parsed with
    | some v => .ok v
    | none => .ok 0
  | .rollSize parsed =>
    match parsed with
    | some _ => .ok z
    | none => .error (asciiBytes "parsing size")
  | .otherOpt => .ok z

/-- The option loop of `UnmarshalCaddyfile` (part_000): fold the options over
`z.Truncate` (initially its Go zero value), stopping at the first option that
returns a dispenser error. -/
def runOpts : Nat → List CfgOpt → Except (List Nat) Nat
  | z, [] => .ok z
  | z, o :: rest =>
    match applyOpt z o with
    | .ok z2 => runOpts z2 rest
    | .error e => .error e

/-- `UnmarshalCaddyfile` (part_000) restricted to its effect on `Truncate`:
run the option loop from 0, then apply the trailing
`if z.Truncate == 0 then DefaultTruncate` default. -/
def unmarshalCaddyfile (opts : List CfgOpt) : Except (List Nat) Nat :=
  (runOpts 0 opts).map fun t => if t = 0 then DefaultTruncate else t

/-- True when no option in the list is a `truncate` option. -/
def noTruncateOpt (opts : List CfgOpt) : Bool :=
  opts.all fun o => match o with
    | CfgOpt.truncate _ => false
    | _ => true

end Part0

/-! ### Helper lemmas -/

/-- `Main.pwWrite` never touches the recorded status code. -/
theorem main_pwWrite_code (pw : Main.ProxyWriter) (data : List Nat) (n : Nat)
    (e : Option (List Nat)) : (Main.pwWrite pw data n e).1.code = pw.code := by
  simp only [Main.pwWrite]
  split <;> rfl

/-- `Main.pwRead` never touches the recorded status code. -/
theorem main_pwRead_code (pw : Main.ProxyWriter) (rb : List Nat)
    (e : Option (List Nat)) : (Main.pwRead pw rb e).1.code = pw.code := by
  simp only [Main.pwRead]
  split
  · rfl
  · split <;> rfl

/-- Folding handler events that never call `WriteHeader` leaves `code` at its
initial value. -/
theorem main_foldl_code (es : List Main.HEvent) :
    ∀ pw : Main.ProxyWriter, Main.noExplicitStatus es = true →
    (List.foldl Main.step pw es).code = pw.code := by
  induction es with
  | nil => intro pw _; rfl
  | cons e rest ih =>
    intro pw h
    simp only [Main.noExplicitStatus, List.all_cons, Bool.and_eq_true] at h
    have hrest : Main.noExplicitStatus rest = true := h.2
    cases e with
    | writeHeader k => simp at h
    | write data n =>
      simp only [List.foldl_cons, Main.step]
      rw [ih _ hrest, main_pwWrite_code]
    | read rb =>
      simp only [List.foldl_cons, Main.step]
      rw [ih _ hrest, main_pwRead_code]

/-- A run of `'a'` bytes contains no byte above 127. -/
theorem any_gt127_replicate97 (n : Nat) :
    (List.replicate n 97).any (fun b => 127 < b) = false := by
  induction n with
  | zero => rfl
  | succ m ih => simp [List.replicate_succ, List.any_cons, ih]

/-- `escapeNewlines` is the identity on a run of `'a'` bytes. -/
theorem escapeNewlines_replicate97 (n : Nat) :
    Main.escapeNewlines (List.replicate n 97) = List.replicate n 97 := by
  induction n with
  | zero => rfl
  | succ m ih =>
    simp only [List.replicate_succ, Main.escapeNewlines, ih]
    norm_num

/-- The model parser rejects any non-empty run of `'a'` bytes. -/
theorem parseVal_replicate97 (fuel m : Nat) :
    GoJson.parseVal fuel (List.replicate (m + 1) 97) = none := by
  cases fuel with
  | zero => rfl
  | succ f =>
    rw [List.replicate_succ]
    simp [GoJson.parseVal, GoJson.skipWS, GoJson.isWS, GoJson.parseNumber,
      GoJson.digitRun, GoJson.isDigitByte]

/-- `json.Unmarshal` (model) fails on any non-empty run of `'a'` bytes. -/
theorem unmarshal_replicate97 (m : Nat) :
    GoJson.goJsonUnmarshal (List.replicate (m + 1) 97) = none := by
  unfold GoJson.goJsonUnmarshal
  rw [parseVal_replicate97]

/-- Splitting the option loop of `UnmarshalCaddyfile` at a list append. -/
theorem part0_runOpts_append (l1 : List Part0.CfgOpt) :
    ∀ (z : Nat) (l2 : List Part0.CfgOpt),
    Part0.runOpts z (l1 ++ l2) =
      match Part0.runOpts z l1 with
      | .ok z2 => Part0.runOpts z2 l2
      | .error e => .error e := by
  induction l1 with
  | nil => intro z l2; rfl
  | cons o rest ih =>
    intro z l2
    simp only [List.cons_append, Part0.runOpts]
    cases Part0.applyOpt z o with
    | ok z2 => exact ih z2 l2
    | error e => rfl

/-- Options other than `truncate` never change the accumulated `Truncate`
value: the loop either keeps it or stops with a dispenser error. -/
theorem part0_runOpts_noTruncate (os : List Part0.CfgOpt) :
    ∀ z : Nat, Part0.noTruncateOpt os = true →
    Part0.runOpts z os = .ok z ∨ ∃ e, Part0.runOpts z os = .error e := by
  induction os with
  | nil => intro z _; exact Or.inl rfl
  | cons o rest ih =>
    intro z h
    simp only [Part0.noTruncateOpt, List.all_cons, Bool.and_eq_true] at h
    have hrest : Part0.noTruncateOpt rest = true := h.2
    cases o with
    | truncate p => simp at h
    | rollSize p =>
      cases p with
      | some v =>
        simp only [Part0.runOpts, Part0.applyOpt]
        exact ih z hrest
      | none =>
        simp only [Part0.runOpts, Part0.applyOpt]
        exact Or.inr ⟨asciiBytes "parsing size", rfl⟩
    | otherOpt =>
      simp only [Part0.runOpts, Part0.applyOpt]
      exact ih z hrest

/-! ### Claims -/

/-- C1: every `proxyWriter.Write` and `proxyWriter.Read` (src/main.go)
returns to its caller exactly the byte count and error produced by the
underlying `ResponseWriter.Write` / `body.Read` call, whatever the capture
buffers hold; the capture path introduces no result of its own. -/
theorem c1_transport_returns_underlying :
    ∀ (pw qw : Main.ProxyWriter) (data readBytes : List Nat) (n : Nat)
      (e1 e2 : Option (List Nat)),
    (Main.pwWrite pw data n e1).2 = (n, e1) ∧
    (Main.pwRead qw readBytes e2).2 = (readBytes.length, e2) := by
  intro pw qw data readBytes n e1 e2
  constructor
  · simp only [Main.pwWrite]
    split <;> rfl
  · simp only [Main.pwRead]
    split
    · rfl
    · split <;> rfl

/-- C2 counterexample: `proxyWriter.Write` in src/main.go appends the WHOLE
chunk whenever the buffer is below `MaxBufferSize`, so one write of
`MaxBufferSize + 1` bytes into the empty buffer retains more than the
capacity ceiling — refuting "appends at most what fits under the remaining
capacity, so the retained length never exceeds the ceiling". -/
theorem c2_counterexample :
    Main.MaxBufferSize <
      ((Main.pwWrite (Main.initPW (asciiBytes "GET") (asciiBytes "/") [] 0)
        (List.replicate 524289 65) 524289 none).1).buf.length := by
  simp only [Main.pwWrite, Main.initPW, Main.MaxBufferSize]
  norm_num

/-- C2 amended: in the part_000 variant, `Write` and `Read` append exactly
`min(chunk, remaining capacity)`, so a buffer within its `truncate` capacity
stays within it, while the observed-size counters always grow by the full
underlying count; in the src/main.go variant, `Write` stops growing the
buffer only once it is at or above `MaxBufferSize` (leaving it unchanged
then), the response counter still grows by the full count, and a single
write can push the retained length past the ceiling by up to the chunk
length. -/
theorem c2_amended_buffer_caps :
    ∀ (pw : Part0.ProxyWriter) (q : Main.ProxyWriter) (data readBytes data2 : List Nat)
      (n n2 : Nat) (e : Option (List Nat)),
    (pw.respBuf.length ≤ pw.truncate →
      (Part0.pwWrite pw data n).respBuf.length ≤ pw.truncate) ∧
    (pw.reqBuf.length ≤ pw.truncate →
      (Part0.pwRead pw readBytes).reqBuf.length ≤ pw.truncate) ∧
    (Part0.pwWrite pw data n).respSize = pw.respSize + n ∧
    (Part0.pwRead pw readBytes).reqSize = pw.reqSize + readBytes.length ∧
    (Main.MaxBufferSize ≤ q.buf.length →
      (Main.pwWrite q data2 n2 e).1.buf = q.buf) ∧
    (Main.pwWrite q data2 n2 e).1.respLen = q.respLen + n2 ∧
    (Main.pwWrite q data2 n2 e).1.buf.length ≤ q.buf.length + data2.length := by
  intro pw q data readBytes data2 n n2 e
  refine ⟨?_, ?_, ?_, ?_, ?_, ?_, ?_⟩
  · intro h
    simp only [Part0.pwWrite, goMin, List.length_append, List.length_take]
    split <;> omega
  · intro h
    simp only [Part0.pwRead, goMin, List.length_append, List.length_take]
    split <;> omega
  · simp only [Part0.pwWrite]
  · simp only [Part0.pwRead]
  · intro h
    simp only [Main.pwWrite]
    rw [if_pos h]
  · simp only [Main.pwWrite]
    split <;> rfl
  · simp only [Main.pwWrite]
    split
    · simp
    · simp only [List.length_append]
      omega

/-- C2 witness: the part_000 cap and the src/main.go counter at concrete
inputs — a 4-byte write into a buffer holding 3 of 5 capacity bytes stays
within capacity, and a 1-byte write is fully counted. -/
theorem c2_witness :
    (Part0.pwWrite ⟨[1, 2, 3], 3, 0, [], 0, 5⟩ [9, 9, 9, 9] 4).respBuf.length ≤ 5 ∧
    (Main.pwWrite (Main.initPW [] [] [] 0) [1] 1 none).1.respLen = 0 + 1 := by
  constructor
  · exact (c2_amended_buffer_caps ⟨[1, 2, 3], 3, 0, [], 0, 5⟩ (Main.initPW [] [] [] 0)
      [9, 9, 9, 9] [] [1] 4 1 none).1 (by decide)
  · exact (c2_amended_buffer_caps ⟨[1, 2, 3], 3, 0, [], 0, 5⟩ (Main.initPW [] [] [] 0)
      [9, 9, 9, 9] [] [1] 4 1 none).2.2.2.2.2.1

/-- C3 amended: `writeLog` (src/main.go) substitutes `[Large Response]`
when the COUNTED response size exceeds `MaxBufferSize` and `[Large Request]`
when the request's DECLARED `Content-Length` exceeds it, without touching
the capture buffers; the request check uses the declared header value, not
the observed byte count, so a request whose actual body exceeds the
threshold while its declared length does not (e.g. chunked, ContentLength
-1) is still rendered. -/
theorem c3_amended_large_placeholders :
    ∀ pw : Main.ProxyWriter,
    (Main.MaxBufferSize < pw.respLen →
      Main.respField pw = asciiBytes " [Large Response] ") ∧
    ((Main.MaxBufferSize : Int) < pw.contentLength →
      Main.reqField pw = asciiBytes " [Large Request] ") := by
  intro pw
  constructor
  · intro h
    simp only [Main.respField]
    rw [if_pos h]
  · intro h
    simp only [Main.reqField]
    rw [if_pos h]

/-- C3 witness: a response whose observed size is 2 MiB under the 512 KiB
threshold renders as the `[Large Response]` placeholder, whatever JSON the
capture buffer holds. -/
theorem c3_witness :
    Main.respField ⟨asciiBytes "\x7b\"k\":\"v\"\x7d", 200, [], 2 * 1024 * 1024,
      asciiBytes "GET", asciiBytes "/", [], 0⟩ = asciiBytes " [Large Response] " :=
  (c3_amended_large_placeholders _).1 (by norm_num [Main.MaxBufferSize])

/-- C3 counterexample: an exchange reading a 524289-byte request body under
a declared `Content-Length` of -1 (unknown length) observes more bytes than
the threshold, yet `writeLog` renders the captured text instead of the
`[Large Request]` placeholder — refuting the claim for the request side. -/
theorem c3_counterexample :
    Main.MaxBufferSize < (List.replicate 524289 97).length ∧
    Main.reqField ((Main.pwRead (Main.initPW (asciiBytes "GET") (asciiBytes "/") [] (-1))
      (List.replicate 524289 97) none).1) ≠ asciiBytes " [Large Request] " := by
  have h9 : (524289 : Nat) = 524288 + 1 := by norm_num
  constructor
  · rw [List.length_replicate]
    norm_num [Main.MaxBufferSize]
  · have hread : (Main.pwRead (Main.initPW (asciiBytes "GET") (asciiBytes "/") [] (-1))
        (List.replicate 524289 97) none).1 =
        { Main.initPW (asciiBytes "GET") (asciiBytes "/") [] (-1) with
          bodyBuf := List.replicate 524289 97 } := by
      simp only [Main.pwRead, Main.initPW]
      rw [if_neg (by norm_num [Main.MaxBufferSize])]
      rw [if_neg (by rw [any_gt127_replicate97]; simp)]
      rfl
    rw [hread]
    have hfield : Main.reqField { Main.initPW (asciiBytes "GET") (asciiBytes "/") [] (-1) with
        bodyBuf := List.replicate 524289 97 } =
        32 :: Main.tryToJson (List.replicate 524289 97) := by
      simp only [Main.reqField, Main.initPW]
      rw [if_neg (by norm_num [Main.MaxBufferSize])]
    rw [hfield]
    have htry : Main.tryToJson (List.replicate 524289 97) = List.replicate 512 97 := by
      simp only [Main.tryToJson]
      rw [h9, unmarshal_replicate97, ← h9]
      simp only [escapeNewlines_replicate97]
      rw [List.take_replicate]
      norm_num [Main.MaxTextSize]
    rw [htry]
    intro hcon
    have hlen := congrArg List.length hcon
    simp only [List.length_cons, List.length_replicate] at hlen
    have : (asciiBytes " [Large Request] ").length = 17 := by decide
    omega

/-- C4 counterexample: Go unmarshals a JSON object into a map and
`json.Marshal` emits map keys in sorted byte order, so `tryToJson` on the
already-compact document with keys in the order b, a re-serializes it with
the keys REORDERED to a, b — refuting "original document key order
preserved". -/
theorem c4_counterexample :
    Main.tryToJson (asciiBytes "\x7b\"b\":1,\"a\":2\x7d") =
      asciiBytes "\x7b\"a\":2,\"b\":1\x7d" ∧
    asciiBytes "\x7b\"a\":2,\"b\":1\x7d" ≠ asciiBytes "\x7b\"b\":1,\"a\":2\x7d" := by
  constructor
  · decide
  · decide

/-- C4 amended: for a captured payload shorter than the truncation limit
that the model parser accepts as JSON, the rendered body is the compact
re-serialization with whitespace removed and object keys in SORTED byte
order (Go marshals maps with sorted keys; the original document order is
not preserved), truncated to `MaxTextSize`. -/
theorem c4_amended_json_rerender :
    ∀ (bs : List Nat) (v : GoJson.JVal),
    bs.length < Main.MaxTextSize →
    GoJson.goJsonUnmarshal bs = some v →
    Main.tryToJson bs = (GoJson.marshalVal v).take Main.MaxTextSize := by
  intro bs v _ h
  simp only [Main.tryToJson, h]

/-- C4 witness: the spec's own scenario — the 15-byte request body with
interior whitespace renders as its compact form (its keys already being in
sorted order). -/
theorem c4_witness :
    Main.tryToJson (asciiBytes "\x7b\"a\":1,  \"b\":2\x7d") =
      asciiBytes "\x7b\"a\":1,\"b\":2\x7d" := by
  have h := c4_amended_json_rerender (asciiBytes "\x7b\"a\":1,  \"b\":2\x7d")
    (GoJson.JVal.jobj (GoJson.JObj.cons (asciiBytes "a") (GoJson.JVal.jint 1)
      (GoJson.JObj.cons (asciiBytes "b") (GoJson.JVal.jint 2) GoJson.JObj.nil)))
    (by decide) (by rfl)
  rw [h]
  decide

/-- C5: a captured payload the JSON parse rejects renders as the raw text
with each newline byte replaced by the two bytes `\` `n`, then truncated to
`MaxTextSize` — exactly the fallback path of `tryToJson` (src/main.go). -/
theorem c5_nonjson_escape_truncate :
    ∀ bs : List Nat, (GoJson.goJsonUnmarshal bs).isNone = true →
    Main.tryToJson bs = (Main.escapeNewlines bs).take Main.MaxTextSize := by
  intro bs h
  rw [Option.isNone_iff_eq_none] at h
  simp only [Main.tryToJson, h]

/-- C5 witness: the non-JSON body "hello\nworld" renders with its newline
escaped (and is far below the truncation limit). -/
theorem c5_witness :
    (GoJson.goJsonUnmarshal (asciiBytes "hello\nworld")).isNone = true ∧
    Main.tryToJson (asciiBytes "hello\nworld") =
      (Main.escapeNewlines (asciiBytes "hello\nworld")).take Main.MaxTextSize :=
  ⟨by decide, c5_nonjson_escape_truncate (asciiBytes "hello\nworld") (by decide)⟩

/-- C6: when the downstream handler never calls `WriteHeader`, the `code`
field of the `proxyWriter` stays at its Go zero value, so the status field
of the emitted log line is the byte string "0" — NOT the claimed implicit
default 200, even though the real HTTP response defaults to 200 on the
wire.  This refutes the claim on the code as written. -/
theorem c6_default_status_logs_zero :
    ∀ (es : List Main.HEvent) (m u ct : List Nat) (cl : Int),
    Main.noExplicitStatus es = true →
    Main.statusField (List.foldl Main.step (Main.initPW m u ct cl) es) = asciiBytes "0" := by
  intro es m u ct cl h
  unfold Main.statusField
  rw [main_foldl_code es _ h]
  have hz : (Main.initPW m u ct cl).code = 0 := rfl
  rw [hz]
  decide

/-- C6 witness: a handler that only writes a body (never `WriteHeader`)
produces a log line whose status field is "0". -/
theorem c6_witness :
    Main.statusField (List.foldl Main.step
      (Main.initPW (asciiBytes "GET") (asciiBytes "/") [] 0)
      [Main.HEvent.write (asciiBytes "hi") 2]) = asciiBytes "0" :=
  c6_default_status_logs_zero [Main.HEvent.write (asciiBytes "hi") 2]
    (asciiBytes "GET") (asciiBytes "/") [] 0 (by decide)

/-- C7 counterexample: with the file sink unopened (`z.LogFile == nil`),
`ServeHTTP` skips the whole logging block, so the console sink receives
nothing either — refuting "the line is still written to the console stream
when the file sink failed to open". -/
theorem c7_counterexample :
    (Main.serveSinks false false false (asciiBytes "log line") none).2.1 ≠
      some (asciiBytes "log line") := by
  decide

/-- C7 amended: when the file sink opened, the line goes to both sinks and
neither sink's write failure (both results are discarded by the code)
changes what is delivered or returned; when the file sink failed to open,
NEITHER sink receives the line; in all cases `ServeHTTP` returns exactly
the downstream handler's error. -/
theorem c7_amended_sink_dispatch :
    ∀ (fileOpen f1 f2 g1 g2 : Bool) (line : List Nat) (herr : Option (List Nat)),
    Main.serveSinks fileOpen f1 g1 line herr = Main.serveSinks fileOpen f2 g2 line herr ∧
    (Main.serveSinks fileOpen f1 g1 line herr).2.2 = herr ∧
    (fileOpen = true →
      Main.serveSinks fileOpen f1 g1 line herr = (some line, some line, herr)) ∧
    (fileOpen = false →
      Main.serveSinks fileOpen f1 g1 line herr = (none, none, herr)) := by
  intro fileOpen f1 f2 g1 g2 line herr
  cases fileOpen <;> simp [Main.serveSinks]

/-- C7 witness: with the file sink open, a failing file write still leaves
the console delivery and the returned handler error intact. -/
theorem c7_witness :
    Main.serveSinks true true false (asciiBytes "L") (some (asciiBytes "boom")) =
      (some (asciiBytes "L"), some (asciiBytes "L"), some (asciiBytes "boom")) :=
  (c7_amended_sink_dispatch true true true false false (asciiBytes "L")
    (some (asciiBytes "boom"))).2.2.1 rfl

/-- C8 counterexample: the non-ASCII rejection in `proxyWriter.Read`
(src/main.go) is per-call, not sticky: after a read containing the byte
255 retains nothing, a later all-ASCII read IS retained — refuting "the
buffer retains zero further bytes for the remainder of the exchange". -/
theorem c8_counterexample :
    ((Main.pwRead (Main.pwRead (Main.initPW (asciiBytes "POST") (asciiBytes "/u") [] 4)
        [255] none).1 [97] none).1).bodyBuf = [97] ∧
    ([97] : List Nat) ≠ [] := by
  constructor
  · decide
  · decide

/-- C8 amended: a single `Read` call that returns any byte above 127
retains nothing from THAT call (the buffer is unchanged) while still
returning the underlying count and error; capture resumes on later
all-ASCII reads.  The behaviour is a pure function of the read bytes, hence
deterministic. -/
theorem c8_amended_per_read_ascii :
    ∀ (pw : Main.ProxyWriter) (rb : List Nat) (e : Option (List Nat)),
    rb.any (fun b => 127 < b) = true →
    (Main.pwRead pw rb e).1.bodyBuf = pw.bodyBuf ∧
    (Main.pwRead pw rb e).2 = (rb.length, e) := by
  intro pw rb e h
  simp only [Main.pwRead, h, if_true]
  split
  · exact ⟨rfl, rfl⟩
  · exact ⟨rfl, rfl⟩

/-- C8 witness: the spec's two-byte body 255 254, read in one call, retains
zero bytes while the caller still sees 2 bytes read. -/
theorem c8_witness :
    (Main.pwRead (Main.initPW (asciiBytes "POST") (asciiBytes "/") [] 2)
      [255, 254] none).1.bodyBuf = [] ∧
    (Main.pwRead (Main.initPW (asciiBytes "POST") (asciiBytes "/") [] 2)
      [255, 254] none).2 = (2, none) :=
  c8_amended_per_read_ascii (Main.initPW (asciiBytes "POST") (asciiBytes "/") [] 2)
    [255, 254] none (by decide)

/-- C9 counterexample: `writeLog` calls `time.Now()` on every invocation,
so two invocations on the SAME captured state whose clock readings differ
by one second produce different byte strings — refuting byte-identical
idempotence. -/
theorem c9_counterexample :
    Main.writeLog (asciiBytes "2024-01-02 03:04:05") (asciiBytes "1ms")
      ⟨[], 200, [], 0, asciiBytes "GET", asciiBytes "/", [], 0⟩ ≠
    Main.writeLog (asciiBytes "2024-01-02 03:04:06") (asciiBytes "1ms")
      ⟨[], 200, [], 0, asciiBytes "GET", asciiBytes "/", [], 0⟩ := by
  decide

/-- C9 amended: the output of `writeLog` depends on the call time only
through its leading timestamp: dropping each invocation's own timestamp
leaves byte-identical remainders for any two invocations on the same
captured state and duration (so two calls within the same formatted clock
second produce byte-identical lines). -/
theorem c9_amended_time_only_in_timestamp :
    ∀ (t1 t2 dur : List Nat) (pw : Main.ProxyWriter),
    List.drop t1.length (Main.writeLog t1 dur pw) =
    List.drop t2.length (Main.writeLog t2 dur pw) := by
  intro t1 t2 dur pw
  simp only [Main.writeLog]
  rw [List.drop_left, List.drop_left]

/-- C10: a `truncate` option whose value fails `humanize.ParseBytes` is
silently accepted: the parse error is discarded (the assignment leaves
`Truncate` 0, exactly as `applyOpt` shows), no dispenser error is
returned, and the trailing default makes the final `Truncate` 1024 — the
malformed option is indistinguishable from an absent one. -/
theorem c10_malformed_truncate_is_absent :
    ∀ pre suf : List Part0.CfgOpt,
    Part0.noTruncateOpt pre = true → Part0.noTruncateOpt suf = true →
    Part0.unmarshalCaddyfile (pre ++ Part0.CfgOpt.truncate none :: suf) =
      Part0.unmarshalCaddyfile (pre ++ suf) ∧
    Part0.applyOpt 0 (Part0.CfgOpt.truncate none) = Except.ok 0 ∧
    Part0.unmarshalCaddyfile [Part0.CfgOpt.truncate none] = Except.ok Part0.DefaultTruncate := by
  intro pre suf hpre _
  refine ⟨?_, rfl, rfl⟩
  unfold Part0.unmarshalCaddyfile
  rw [part0_runOpts_append, part0_runOpts_append]
  rcases part0_runOpts_noTruncate pre 0 hpre with h | ⟨e, h⟩
  · rw [h]
    rfl
  · rw [h]

/-- C10 witness: after a well-formed `roll_size`, a malformed `truncate`
value yields the same configuration as no `truncate` option at all (and
that configuration carries the 1024-byte default). -/
theorem c10_witness :
    Part0.unmarshalCaddyfile
        [Part0.CfgOpt.rollSize (some 32), Part0.CfgOpt.truncate none] =
      Part0.unmarshalCaddyfile [Part0.CfgOpt.rollSize (some 32)] ∧
    Part0.unmarshalCaddyfile [Part0.CfgOpt.rollSize (some 32)] =
      Except.ok Part0.DefaultTruncate :=
  ⟨(c10_malformed_truncate_is_absent [Part0.CfgOpt.rollSize (some 32)] []
      (by decide) (by decide)).1, rfl⟩
